import Mathlib

/-!
Verification of the pagination/subscription core of `useRxQuery`
(`src/unnamed/part_001`) and its sibling `useRxData` (`src/src/useRxData.ts`).

The embedding follows the TypeScript source:
* JS numbers that hold integers are modelled as `Int` (state fields, user
  supplied page numbers); the configured `pageSize` is a `Nat`, matching the
  spec's "non-negative integer" configuration constraint.
* `state.page` is `number | undefined` in the source and is modelled as
  `Option Int`.  The source expression `state.page + 1` evaluates to `NaN`
  when `page` is `undefined`; `NaN` propagates like an undefined value, so it
  is modelled by `Option.map (· + 1)`.
* JS truthiness tests (`!pageSize`, `!startingPage`, `!state.page`,
  `!state.limit`) are equality with `0` / undefined.
-/

inductive SortOrder where
  | asc
  | desc
deriving DecidableEq, Repr

/-- The `UseRxQueryOptions` configuration of `useRxQuery`, plus `queryValid`,
which models whether the externally supplied query object passes the
`isRxQuery` check (constant per mount, as the query identity is an effect
dependency). `json` only changes the projection of emitted documents and is
orthogonal to the pagination logic, so it is not carried. -/
structure Config where
  pageSize : Nat
  startingPage : Option Int
  sortBy : Option String
  sortOrder : SortOrder
  queryValid : Bool
deriving DecidableEq, Repr

inductive PaginationMode where
  | Traditional
  | InfiniteScroll
  | None
deriving DecidableEq, Repr

/-- Embedding of `getPaginationMode` from `src/unnamed/part_001` lines 204-213.
`!pageSize` is `pageSize == 0`; `!startingPage` is "undefined or 0". -/
def getPaginationMode (o : Config) : PaginationMode :=
  if o.pageSize = 0 then .None
  else if o.startingPage.getD 0 = 0 then .InfiniteScroll
  else .Traditional

/-- Embedding of `RxState<T>` from `src/unnamed/part_001` lines 105-112. -/
structure RxState (T : Type) where
  result : List T
  isFetching : Bool
  isExhausted : Bool
  limit : Int
  page : Option Int
  pageCount : Int
deriving DecidableEq, Repr

/-- Embedding of `AnyAction<T>` from `src/unnamed/part_001` lines 114-158: the six tagged
action variants consumed by the reducer. -/
inductive AnyAction (T : Type) where
  | Reset (pageSize : Int)
  | FetchMore (pageSize : Int)
  | FetchPage (page : Int)
  | CountPages (pageCount : Int)
  | FetchSuccess (docs : List T)
  | QueryChanged
deriving DecidableEq, Repr

/-- The `reducer` of `src/unnamed/part_001` lines 160-202.  In the
`FetchSuccess` case the source computes
`!state.limit || action.docs.length < state.limit`; in the `FetchMore` case
`state.page + 1` is `NaN` (modelled `none`) when `page` is undefined. -/
def reducer {T : Type} (state : RxState T) (action : AnyAction T) : RxState T :=
  match action with
  | .Reset pageSize =>
      { state with result := [], isFetching := true, limit := pageSize }
  | .FetchMore pageSize =>
      { state with
          isFetching := true
          page := state.page.map (· + 1)
          limit := state.limit + pageSize }
  | .FetchPage page =>
      { state with isFetching := true, page := some page }
  | .CountPages pageCount =>
      { state with pageCount := pageCount }
  | .FetchSuccess docs =>
      { state with
          result := docs
          isFetching := false
          isExhausted := decide (state.limit = 0) ||
            decide ((docs.length : Int) < state.limit) }
  | .QueryChanged =>
      { state with isFetching := true }

/-- Embedding of `initialState` from `src/unnamed/part_001` lines 247-255. -/
def initialState {T : Type} (cfg : Config) : RxState T :=
  { result := []
    page :=
      if getPaginationMode cfg = .InfiniteScroll then some 1 else cfg.startingPage
    limit := if getPaginationMode cfg = .InfiniteScroll then (cfg.pageSize : Int) else 0
    isFetching := true
    isExhausted := false
    pageCount := 0 }

/-- The `fetchPage` callback, `src/unnamed/part_001` lines 262-273: no-op
outside `Traditional` mode and for `page < 0 || page > state.pageCount`,
otherwise dispatches `FetchPage(page)` to the reducer. -/
def fetchPage {T : Type} (cfg : Config) (state : RxState T) (page : Int) : RxState T :=
  if getPaginationMode cfg ≠ .Traditional then state
  else if page < 0 ∨ page > state.pageCount then state
  else reducer state (.FetchPage page)

/-- The `fetchMore` callback, `src/unnamed/part_001` lines 275-283. -/
def fetchMore {T : Type} (cfg : Config) (state : RxState T) : RxState T :=
  if getPaginationMode cfg ≠ .InfiniteScroll then state
  else if state.isFetching ∨ state.isExhausted then state
  else reducer state (.FetchMore (cfg.pageSize : Int))

/-- The `resetList` callback, `src/unnamed/part_001` lines 285-293. -/
def resetList {T : Type} (cfg : Config) (state : RxState T) : RxState T :=
  if getPaginationMode cfg ≠ .InfiniteScroll then state
  else if state.limit ≤ (cfg.pageSize : Int) then state
  else reducer state (.Reset (cfg.pageSize : Int))

/-- JS truthiness of `state.page` (`!state.page` in the count effect guard,
line 344): truthy when defined and nonzero. -/
def pageTruthy {T : Type} (state : RxState T) : Bool :=
  decide (state.page.getD 0 ≠ 0)

/-- The page count dispatched by the count subscription callback,
`src/unnamed/part_001` line 354: `Math.ceil(docs.length / pageSize)`.
For `pageSize ≥ 1` the integer ceiling `(n + pageSize - 1) / pageSize`
agrees with `Math.ceil` on exact division of integers (proved against the
rational ceiling below); `pageSize = 0` would give `Infinity`/`NaN` in JS and
is outside every mode in which the count callback is specified. -/
def countDispatch (pageSize : Nat) (n : Nat) : Int :=
  (((n + pageSize - 1) / pageSize : Nat) : Int)

/-- The materialized query description handed to the data source: `skip`,
`limit` and `sort`, `none` meaning unconstrained. -/
structure QueryDesc where
  skip : Option Int
  limit : Option Int
  sort : Option (String × SortOrder)
deriving DecidableEq, Repr

/-- The query materialization of the result effect, `src/unnamed/part_001`
lines 300-314: in `Traditional` mode `skip((page - 1) * pageSize)` and
`limit(pageSize)`; in `InfiniteScroll` mode `limit(state.limit)`; the
configured sort is applied on top.  `(state.page - 1) * pageSize` is `NaN`
when `page` is undefined, modelled by `Option.map`. -/
def materialize {T : Type} (cfg : Config) (state : RxState T) : QueryDesc :=
  let q0 : QueryDesc := { skip := none, limit := none, sort := none }
  let q1 :=
    if getPaginationMode cfg = .Traditional then
      { q0 with
          skip := state.page.map (fun p => (p - 1) * (cfg.pageSize : Int))
          limit := some (cfg.pageSize : Int) }
    else q0
  let q2 :=
    if getPaginationMode cfg = .InfiniteScroll then
      { q1 with limit := some state.limit }
    else q1
  match cfg.sortBy with
  | some f => { q2 with sort := some (f, cfg.sortOrder) }
  | none => q2

/-!
## Subscription manager machine

The React/RxJS lifecycle of `useRxQuery` is modelled as a transition system.
A manager instance carries the reducer state together with the identifiers of
the live subscriptions per role ("result" and "count").  Identifiers are
allocated from a monotone counter, so a later subscription always has a larger
identifier; `appliedLog` records, in order, the identifier of the result
subscription whose emission was applied by each `FetchSuccess` dispatch.

The model encodes exactly the contracts the source relies on:
* an effect re-run first executes the cleanup returned by the previous run
  (which unsubscribes, lines 330-332 and 359-361), then the effect body;
* an unsubscribed subscription delivers no further emissions (an emission step
  requires the subscription id to be live);
* after unmount (`dispose`) no effect runs and no callback dispatches.
Emission payloads are unconstrained: the data source is external.
-/

structure MState (T : Type) where
  st : RxState T
  resultSubs : List Nat
  countSubs : List Nat
  nextId : Nat
  appliedLog : List Nat
  disposed : Bool
deriving DecidableEq, Repr

/-- A freshly mounted instance: reducer state `initialState`, no live
subscriptions. -/
def initM {T : Type} (cfg : Config) : MState T :=
  { st := initialState cfg
    resultSubs := []
    countSubs := []
    nextId := 0
    appliedLog := []
    disposed := false }

/-- One run of the result effect, `src/unnamed/part_001` lines 295-341: the
previous result subscription is released by its cleanup; if the query fails
`isRxQuery` the body returns without subscribing; otherwise it dispatches
`QueryChanged` and opens a fresh subscription to the materialized query. -/
def applyResultEffect {T : Type} (cfg : Config) (m : MState T) : MState T :=
  if cfg.queryValid then
    { m with
        st := reducer m.st .QueryChanged
        resultSubs := [m.nextId]
        nextId := m.nextId + 1 }
  else { m with resultSubs := [] }

/-- One run of the count effect, `src/unnamed/part_001` lines 343-362: the
previous count subscription is released by its cleanup; the body returns
without subscribing unless `state.page` is truthy and the query passes
`isRxQuery`.  Note the guard is on `state.page`, not on the pagination
mode. -/
def applyCountEffect {T : Type} (cfg : Config) (m : MState T) : MState T :=
  if cfg.queryValid = true ∧ pageTruthy m.st = true then
    { m with countSubs := [m.nextId], nextId := m.nextId + 1 }
  else { m with countSubs := [] }

/-- Transitions of a manager instance: effect runs, emissions on live
subscriptions, facade calls, and unmount. -/
inductive MStep {T : Type} (cfg : Config) : MState T → MState T → Prop where
  | resultEffect (m : MState T) (h : m.disposed = false) :
      MStep cfg m (applyResultEffect cfg m)
  | countEffect (m : MState T) (h : m.disposed = false) :
      MStep cfg m (applyCountEffect cfg m)
  | resultEmit (m : MState T) (i : Nat) (docs : List T) (h : i ∈ m.resultSubs) :
      MStep cfg m
        { m with
            st := reducer m.st (.FetchSuccess docs)
            appliedLog := m.appliedLog ++ [i] }
  | countEmit (m : MState T) (i : Nat) (n : Nat) (h : i ∈ m.countSubs) :
      MStep cfg m
        { m with st := reducer m.st (.CountPages (countDispatch cfg.pageSize n)) }
  | fetchPageCall (m : MState T) (p : Int) (h : m.disposed = false) :
      MStep cfg m { m with st := fetchPage cfg m.st p }
  | fetchMoreCall (m : MState T) (h : m.disposed = false) :
      MStep cfg m { m with st := fetchMore cfg m.st }
  | resetListCall (m : MState T) (h : m.disposed = false) :
      MStep cfg m { m with st := resetList cfg m.st }
  | dispose (m : MState T) (h : m.disposed = false) :
      MStep cfg m { m with resultSubs := [], countSubs := [], disposed := true }

/-- States reachable from a fresh mount. -/
inductive MReachable {T : Type} (cfg : Config) : MState T → Prop where
  | init : MReachable cfg (initM cfg)
  | step {m m' : MState T} (hr : MReachable cfg m) (hs : MStep cfg m m') :
      MReachable cfg m'

/-! ## Invariant lemmas -/

lemma mem_eq_of_length_le_one {l : List Nat} (hl : l.length ≤ 1) {a b : Nat}
    (ha : a ∈ l) (hb : b ∈ l) : a = b := by
  cases l with
  | nil => cases ha
  | cons x xs =>
      cases xs with
      | nil =>
          rw [List.mem_singleton] at ha hb
          rw [ha, hb]
      | cons y ys => simp [List.length_cons] at hl

/-- Resource bookkeeping invariant of the manager machine: subscription ids
are below the allocation counter, at most one subscription per role is live,
a disposed instance holds none, every applied emission came from a
subscription no newer than the currently live one, and applied generations
never decrease along the log. -/
def ManagerInv {T : Type} (m : MState T) : Prop :=
  (∀ i ∈ m.resultSubs, i < m.nextId) ∧
  (∀ i ∈ m.countSubs, i < m.nextId) ∧
  (∀ a ∈ m.appliedLog, a < m.nextId) ∧
  (∀ i ∈ m.resultSubs, ∀ a ∈ m.appliedLog, a ≤ i) ∧
  m.appliedLog.Pairwise (· ≤ ·) ∧
  m.resultSubs.length ≤ 1 ∧
  m.countSubs.length ≤ 1 ∧
  (m.disposed = true → m.resultSubs = [] ∧ m.countSubs = [])

lemma managerInv_step {T : Type} {cfg : Config} {m m' : MState T}
    (hs : MStep cfg m m') (ih : ManagerInv m) : ManagerInv m' := by
  obtain ⟨h1, h2, h3, h4, h5, h6, h7, h8⟩ := ih
  cases hs with
  | resultEffect h =>
      unfold applyResultEffect
      split_ifs with hv
      · unfold ManagerInv
        dsimp only
        refine ⟨?_, ?_, ?_, ?_, h5, by simp, h7, ?_⟩
        · intro i hi; rw [List.mem_singleton] at hi; omega
        · intro i hi; exact Nat.lt_succ_of_lt (h2 i hi)
        · intro a ha; exact Nat.lt_succ_of_lt (h3 a ha)
        · intro i hi a ha
          rw [List.mem_singleton] at hi
          subst hi
          exact Nat.le_of_lt (h3 a ha)
        · intro hd; simp [h] at hd
      · exact ⟨by simp, h2, h3, by simp, h5, by simp, h7,
          fun hd => ⟨rfl, (h8 hd).2⟩⟩
  | countEffect h =>
      unfold applyCountEffect
      split_ifs with hv
      · unfold ManagerInv
        dsimp only
        refine ⟨?_, ?_, ?_, ?_, h5, h6, by simp, ?_⟩
        · intro i hi; exact Nat.lt_succ_of_lt (h1 i hi)
        · intro i hi; rw [List.mem_singleton] at hi; omega
        · intro a ha; exact Nat.lt_succ_of_lt (h3 a ha)
        · intro i hi a ha; exact h4 i hi a ha
        · intro hd; simp [h] at hd
      · exact ⟨h1, by simp, h3, h4, h5, h6, by simp,
          fun hd => ⟨(h8 hd).1, rfl⟩⟩
  | resultEmit i docs hi =>
      unfold ManagerInv
      dsimp only
      refine ⟨h1, h2, ?_, ?_, ?_, h6, h7, h8⟩
      · intro a ha
        rw [List.mem_append] at ha
        rcases ha with ha | ha
        · exact h3 a ha
        · rw [List.mem_singleton] at ha
          rw [ha]
          exact h1 i hi
      · intro j hj a ha
        rw [List.mem_append] at ha
        rcases ha with ha | ha
        · exact h4 j hj a ha
        · rw [List.mem_singleton] at ha
          rw [ha, mem_eq_of_length_le_one h6 hi hj]
      · rw [List.pairwise_append]
        refine ⟨h5, List.pairwise_singleton _ _, ?_⟩
        intro a ha b hb
        rw [List.mem_singleton] at hb
        rw [hb]
        exact h4 i hi a ha
  | countEmit i n hi => exact ⟨h1, h2, h3, h4, h5, h6, h7, h8⟩
  | fetchPageCall p h => exact ⟨h1, h2, h3, h4, h5, h6, h7, h8⟩
  | fetchMoreCall h => exact ⟨h1, h2, h3, h4, h5, h6, h7, h8⟩
  | resetListCall h => exact ⟨h1, h2, h3, h4, h5, h6, h7, h8⟩
  | dispose h =>
      exact ⟨by simp, by simp, h3, by simp, h5, by simp, by simp,
        fun _ => ⟨rfl, rfl⟩⟩

lemma managerInv_reachable {T : Type} {cfg : Config} {m : MState T}
    (hr : MReachable cfg m) : ManagerInv m := by
  induction hr with
  | init =>
      refine ⟨?_, ?_, ?_, ?_, ?_, ?_, ?_, ?_⟩ <;> simp [initM, ManagerInv]
  | step hr hs ih => exact managerInv_step hs ih

/-- Numeric soundness of the reducer state: `limit` is non-negative and
`page`, when defined, is non-negative. -/
def StateInv {T : Type} (s : RxState T) : Prop :=
  0 ≤ s.limit ∧ ∀ p ∈ s.page, 0 ≤ p

lemma stateInv_init {T : Type} (cfg : Config)
    (hsp : ∀ sp ∈ cfg.startingPage, 1 ≤ sp) :
    StateInv (initialState (T := T) cfg) := by
  constructor
  · unfold initialState
    dsimp only
    split_ifs
    · exact Int.natCast_nonneg _
    · exact le_refl 0
  · unfold initialState
    dsimp only
    split_ifs
    · intro p hp
      simp at hp
      omega
    · intro p hp
      have := hsp p hp
      omega

lemma stateInv_step {T : Type} {cfg : Config} {m m' : MState T}
    (hs : MStep cfg m m') (ih : StateInv m.st) : StateInv m'.st := by
  obtain ⟨hl, hp⟩ := ih
  cases hs with
  | resultEffect h =>
      unfold applyResultEffect
      split_ifs with hv
      · exact ⟨hl, hp⟩
      · exact ⟨hl, hp⟩
  | countEffect h =>
      unfold applyCountEffect
      split_ifs with hv
      · exact ⟨hl, hp⟩
      · exact ⟨hl, hp⟩
  | resultEmit i docs hi => exact ⟨hl, hp⟩
  | countEmit i n hi => exact ⟨hl, hp⟩
  | fetchPageCall p h =>
      dsimp only
      unfold fetchPage
      split_ifs with h1 h2
      · exact ⟨hl, hp⟩
      · exact ⟨hl, hp⟩
      · push_neg at h2
        refine ⟨hl, ?_⟩
        intro q hq
        simp [reducer] at hq
        omega
  | fetchMoreCall h =>
      dsimp only
      unfold fetchMore
      split_ifs with h1 h2
      · exact ⟨hl, hp⟩
      · exact ⟨hl, hp⟩
      · refine ⟨?_, ?_⟩
        · have hc : (0 : Int) ≤ (cfg.pageSize : Int) := Int.natCast_nonneg _
          show 0 ≤ m.st.limit + (cfg.pageSize : Int)
          omega
        · intro q hq
          cases hmp : m.st.page with
          | none => rw [show (reducer m.st (.FetchMore (cfg.pageSize : Int))).page
                        = m.st.page.map (· + 1) from rfl, hmp] at hq; cases hq
          | some r =>
              rw [show (reducer m.st (.FetchMore (cfg.pageSize : Int))).page
                    = m.st.page.map (· + 1) from rfl, hmp] at hq
              simp at hq
              have := hp r (by rw [hmp]; rfl)
              omega
  | resetListCall h =>
      dsimp only
      unfold resetList
      split_ifs with h1 h2
      · exact ⟨hl, hp⟩
      · exact ⟨hl, hp⟩
      · exact ⟨Int.natCast_nonneg _, hp⟩
  | dispose h => exact ⟨hl, hp⟩

lemma stateInv_reachable {T : Type} {cfg : Config} {m : MState T}
    (hsp : ∀ sp ∈ cfg.startingPage, 1 ≤ sp) (hr : MReachable cfg m) :
    StateInv m.st := by
  induction hr with
  | init => exact stateInv_init cfg hsp
  | step hr hs ih => exact stateInv_step hs ih

lemma noneMode_step {T : Type} {cfg : Config}
    (hmode : getPaginationMode cfg = .None) {m m' : MState T}
    (hs : MStep cfg m m')
    (ih : m.st.page = none ∧ m.countSubs = [] ∧ m.st.pageCount = 0) :
    m'.st.page = none ∧ m'.countSubs = [] ∧ m'.st.pageCount = 0 := by
  obtain ⟨p1, p2, p3⟩ := ih
  cases hs with
  | resultEffect h =>
      unfold applyResultEffect
      split_ifs with hv
      · exact ⟨p1, p2, p3⟩
      · exact ⟨p1, p2, p3⟩
  | countEffect h =>
      unfold applyCountEffect
      split_ifs with hv
      · exfalso
        have := hv.2
        unfold pageTruthy at this
        rw [p1] at this
        simp at this
      · exact ⟨p1, rfl, p3⟩
  | resultEmit i docs hi => exact ⟨p1, p2, p3⟩
  | countEmit i n hi => rw [p2] at hi; cases hi
  | fetchPageCall p h =>
      have hfp : fetchPage cfg m.st p = m.st := by
        unfold fetchPage
        rw [hmode]
        simp
      dsimp only
      rw [hfp]
      exact ⟨p1, p2, p3⟩
  | fetchMoreCall h =>
      have hfm : fetchMore cfg m.st = m.st := by
        unfold fetchMore
        rw [hmode]
        simp
      dsimp only
      rw [hfm]
      exact ⟨p1, p2, p3⟩
  | resetListCall h =>
      have hrl : resetList cfg m.st = m.st := by
        unfold resetList
        rw [hmode]
        simp
      dsimp only
      rw [hrl]
      exact ⟨p1, p2, p3⟩
  | dispose h => exact ⟨p1, rfl, p3⟩

lemma noneMode_reachable {T : Type} {cfg : Config} (h0 : cfg.pageSize = 0)
    (hsp : cfg.startingPage = none) {m : MState T} (hr : MReachable cfg m) :
    m.st.page = none ∧ m.countSubs = [] ∧ m.st.pageCount = 0 := by
  have hmode : getPaginationMode cfg = .None := by
    unfold getPaginationMode
    simp [h0]
  induction hr with
  | init =>
      refine ⟨?_, rfl, rfl⟩
      show (initialState (T := T) cfg).page = none
      unfold initialState
      dsimp only
      rw [hmode, hsp]
      simp
  | step hr hs ih => exact noneMode_step hmode hs ih

/-- For `pageSize ≥ 1`, the integer expression dispatched by the count
callback equals the true rational ceiling `⌈n / pageSize⌉`. -/
lemma countDispatch_eq_ceil (pageSize n : Nat) (hm : 1 ≤ pageSize) :
    countDispatch pageSize n = ⌈(n : ℚ) / (pageSize : ℚ)⌉ := by
  unfold countDispatch
  have h0 : (0 : ℚ) < (pageSize : ℚ) := by exact_mod_cast hm
  set q := (n + pageSize - 1) / pageSize with hqdef
  have hq := Nat.div_add_mod (n + pageSize - 1) pageSize
  have hrlt : (n + pageSize - 1) % pageSize < pageSize := Nat.mod_lt _ hm
  have hbound : n ≤ q * pageSize ∧ q * pageSize < n + pageSize := by
    rw [mul_comm]
    obtain ⟨P, hP⟩ : ∃ P, pageSize * q = P := ⟨_, rfl⟩
    rw [hP] at hq ⊢
    omega
  rw [eq_comm, Int.ceil_eq_iff]
  constructor
  · rw [lt_div_iff₀ h0]
    have hc : (q : ℚ) * (pageSize : ℚ) < (n : ℚ) + (pageSize : ℚ) := by
      exact_mod_cast hbound.2
    push_cast
    nlinarith [hc]
  · rw [div_le_iff₀ h0]
    push_cast
    exact_mod_cast hbound.1

/-! ## Claim theorems -/

/-- C1: for every state `s` and document list, `reduce(s, FetchSuccess(items))`
sets `result` to the items, clears `isFetching`, and sets `isExhausted` to
true exactly when `s.limit == 0` or fewer items than `s.limit` came back. -/
theorem reduce_fetchSuccess_spec {T : Type} (s : RxState T) (docs : List T) :
    (reducer s (.FetchSuccess docs)).result = docs ∧
    (reducer s (.FetchSuccess docs)).isFetching = false ∧
    ((reducer s (.FetchSuccess docs)).isExhausted = true ↔
      (s.limit = 0 ∨ (docs.length : Int) < s.limit)) := by
  refine ⟨rfl, rfl, ?_⟩
  simp [reducer]

/-- C10: `reduce(s, Reset(n))` changes only `result`, `isFetching` and
`limit`; `isExhausted`, `page` and `pageCount` keep their previous values, so
an `isExhausted = true` flag survives a reset until the next `FetchSuccess`
recomputes it. -/
theorem reduce_reset_frame {T : Type} (s : RxState T) (n : Int) :
    reducer s (.Reset n) =
      { s with result := [], isFetching := true, limit := n } ∧
    (reducer s (.Reset n)).isExhausted = s.isExhausted ∧
    (reducer s (.Reset n)).page = s.page ∧
    (reducer s (.Reset n)).pageCount = s.pageCount :=
  ⟨rfl, rfl, rfl, rfl⟩

/-- C5: `fetchPage(p)` leaves the state unchanged unless the mode is
Traditional and `p` is in range (neither `p < 0` nor `p > pageCount`); when
in range it dispatches `FetchPage(p)`, after which `isFetching = true` and
`page = p` with no other field changed. -/
theorem fetchPage_spec {T : Type} (cfg : Config) (s : RxState T) (p : Int) :
    fetchPage cfg s p =
      if getPaginationMode cfg = .Traditional ∧ ¬(p < 0 ∨ p > s.pageCount) then
        { s with isFetching := true, page := some p }
      else s := by
  unfold fetchPage reducer
  split_ifs with h1 h2 h3 <;> first | rfl | (exfalso; tauto)

/-- C6: `fetchMore()` leaves the state unchanged unless the mode is
InfiniteScroll and neither `isFetching` nor `isExhausted` holds; when
accepted it dispatches `FetchMore(pageSize)`, after which `isFetching = true`,
`page` is incremented by 1 (on its defined value) and `limit` grows by
`pageSize`. -/
theorem fetchMore_spec {T : Type} (cfg : Config) (s : RxState T) :
    fetchMore cfg s =
      if getPaginationMode cfg = .InfiniteScroll ∧ s.isFetching = false ∧
          s.isExhausted = false then
        { s with
            isFetching := true
            page := s.page.map (· + 1)
            limit := s.limit + (cfg.pageSize : Int) }
      else s := by
  unfold fetchMore reducer
  split_ifs with h1 h2 h3 <;> first | rfl | (exfalso; simp_all)

/-- C7: `resetList()` leaves the state unchanged unless the mode is
InfiniteScroll and `limit > pageSize`; when accepted it dispatches
`Reset(pageSize)`, after which `result = []`, `limit = pageSize` and
`isFetching = true` regardless of the prior state. -/
theorem resetList_spec {T : Type} (cfg : Config) (s : RxState T) :
    resetList cfg s =
      if getPaginationMode cfg = .InfiniteScroll ∧ (cfg.pageSize : Int) < s.limit then
        { s with result := [], isFetching := true, limit := (cfg.pageSize : Int) }
      else s := by
  unfold resetList reducer
  by_cases hm : getPaginationMode cfg = .InfiniteScroll
  · by_cases hl : s.limit ≤ (cfg.pageSize : Int)
    · rw [if_neg (by simp [hm]), if_pos hl, if_neg (by rintro ⟨-, h⟩; omega)]
    · rw [if_neg (by simp [hm]), if_neg hl, if_pos ⟨hm, by omega⟩]
  · rw [if_pos (by simp [hm]), if_neg (by rintro ⟨h, -⟩; exact hm h)]

/-- C8: in Traditional mode, whenever `page` is defined the materialized
query applies `skip = (page - 1) * pageSize` and `limit = pageSize`, with the
configured sort on top. -/
theorem materialize_traditional_spec {T : Type} (cfg : Config) (s : RxState T)
    (p : Int) (hm : getPaginationMode cfg = .Traditional) (hp : s.page = some p) :
    (materialize cfg s).skip = some ((p - 1) * (cfg.pageSize : Int)) ∧
    (materialize cfg s).limit = some (cfg.pageSize : Int) ∧
    (materialize cfg s).sort = cfg.sortBy.map (fun f => (f, cfg.sortOrder)) := by
  unfold materialize
  simp only [hm, hp]
  cases hs : cfg.sortBy with
  | none => simp
  | some f => simp

/-- Concrete Traditional configuration of the spec's end-to-end scenario:
`pageSize = 5`, `startingPage = 1`. -/
def cfgTrad8 : Config :=
  { pageSize := 5, startingPage := some 1, sortBy := none, sortOrder := .asc,
    queryValid := true }

/-- The scenario state after `fetchPage(3)`. -/
def sTrad8 : RxState Nat := { initialState cfgTrad8 with page := some 3 }

/-- C8 witness: with `pageSize = 5` and `page = 3` the materialized query is
`{skip: 10, limit: 5}`. -/
theorem materialize_traditional_wit :
    (materialize cfgTrad8 sTrad8).skip = some 10 ∧
    (materialize cfgTrad8 sTrad8).limit = some 5 := by
  have h := materialize_traditional_spec cfgTrad8 sTrad8 3 (by decide) rfl
  exact ⟨by rw [h.1]; decide, by rw [h.2.1]; decide⟩

/-- C9: a count-stream emission of `n` matching documents dispatches
`CountPages` with the true ceiling `⌈n / pageSize⌉` (for `pageSize ≥ 1`), and
that dispatch sets `pageCount` while leaving `isFetching` and `result`
untouched. -/
theorem countPages_ceil_spec {T : Type} (cfg : Config) (s : RxState T) (n : Nat)
    (hm : 1 ≤ cfg.pageSize) :
    (reducer s (.CountPages (countDispatch cfg.pageSize n))).pageCount =
      ⌈(n : ℚ) / (cfg.pageSize : ℚ)⌉ ∧
    (reducer s (.CountPages (countDispatch cfg.pageSize n))).isFetching =
      s.isFetching ∧
    (reducer s (.CountPages (countDispatch cfg.pageSize n))).result = s.result := by
  refine ⟨?_, rfl, rfl⟩
  show countDispatch cfg.pageSize n = _
  exact countDispatch_eq_ceil _ _ hm

/-- Traditional configuration with `pageSize = 5` for the C9 scenario. -/
def cfgTrad9 : Config :=
  { pageSize := 5, startingPage := some 1, sortBy := none, sortOrder := .desc,
    queryValid := true }

/-- C9 witness: 12 total documents with `pageSize = 5` yield
`pageCount = ⌈12/5⌉ = 3`. -/
theorem countPages_ceil_wit :
    (reducer (initialState cfgTrad9 : RxState Nat)
      (AnyAction.CountPages (countDispatch cfgTrad9.pageSize 12))).pageCount = 3 := by
  have h := countPages_ceil_spec cfgTrad9 (initialState cfgTrad9 : RxState Nat) 12
    (by decide)
  rw [h.1, Int.ceil_eq_iff]
  norm_num [cfgTrad9]

/-- C4: subscription discipline — in every reachable manager state at most
one result subscription and at most one count subscription are concurrently
live (an effect run releases the previous subscription of its role before
opening the replacement, which the step relation mirrors), a disposed
instance has zero live subscriptions, and the log of applied result
generations is non-decreasing: an emission of a superseded query is never
applied after an emission of its successor. -/
theorem subscription_discipline {T : Type} (cfg : Config) (m : MState T)
    (hr : MReachable cfg m) :
    m.resultSubs.length ≤ 1 ∧ m.countSubs.length ≤ 1 ∧
    (m.disposed = true → m.resultSubs = [] ∧ m.countSubs = []) ∧
    m.appliedLog.Pairwise (· ≤ ·) := by
  obtain ⟨h1, h2, h3, h4, h5, h6, h7, h8⟩ := managerInv_reachable hr
  exact ⟨h6, h7, h8, h5⟩

/-- InfiniteScroll configuration (`pageSize = 2`, no `startingPage`). -/
def cfgInfWit : Config :=
  { pageSize := 2, startingPage := none, sortBy := none, sortOrder := .asc,
    queryValid := true }

/-- C4 witness: the discipline instantiated at a freshly mounted instance. -/
theorem subscription_discipline_wit :
    (initM cfgInfWit : MState Nat).resultSubs.length ≤ 1 ∧
    (initM cfgInfWit : MState Nat).countSubs.length ≤ 1 := by
  have h := subscription_discipline cfgInfWit (initM cfgInfWit : MState Nat)
    MReachable.init
  exact ⟨h.1, h.2.1⟩

/-- InfiniteScroll configuration for the C2 counterexample. -/
def cfgInfScroll : Config :=
  { pageSize := 2, startingPage := none, sortBy := none, sortOrder := .desc,
    queryValid := true }

/-- Manager state after one count-effect run on a fresh InfiniteScroll
mount. -/
def mCountA : MState Nat := applyCountEffect cfgInfScroll (initM cfgInfScroll)

/-- Manager state after the count subscription then emits 3 documents. -/
def mCountB : MState Nat :=
  { mCountA with
      st := reducer mCountA.st (.CountPages (countDispatch cfgInfScroll.pageSize 3)) }

/-- C2 counterexample: in InfiniteScroll mode `page` is initialized to 1, so
the count effect — whose guard tests `state.page`, not the mode — opens a
live count subscription, and its emission dispatches `CountPages`, making
`pageCount = 2 ≠ 0` in a reachable InfiniteScroll state. -/
theorem count_subscription_infiniteScroll_cex :
    getPaginationMode cfgInfScroll = PaginationMode.InfiniteScroll ∧
    MReachable cfgInfScroll mCountB ∧
    mCountB.countSubs = [0] ∧
    mCountB.st.pageCount = 2 := by
  refine ⟨rfl, ?_, by decide, by decide⟩
  exact MReachable.step
    (MReachable.step MReachable.init (MStep.countEffect (initM cfgInfScroll) rfl))
    (MStep.countEmit mCountA 0 3 (by decide))

/-- C2 (amended): a count-effect run leaves a live count subscription exactly
when the query is valid and `state.page` is truthy — the guard is on the
page, not on Traditional mode — and in None mode without a `startingPage`
the page stays undefined, so no count subscription is ever live, `CountPages`
is never dispatched, and `pageCount` stays 0. -/
theorem count_subscription_page_guard {T : Type} (cfg : Config) (m : MState T)
    (hr : MReachable cfg m) :
    ((applyCountEffect cfg m).countSubs ≠ [] ↔
      (cfg.queryValid = true ∧ pageTruthy m.st = true)) ∧
    (cfg.pageSize = 0 → cfg.startingPage = none →
      m.countSubs = [] ∧ m.st.pageCount = 0 ∧ m.st.page = none) := by
  constructor
  · unfold applyCountEffect
    split_ifs with hv
    · dsimp only
      exact ⟨fun _ => hv, fun _ => by simp⟩
    · dsimp only
      exact ⟨fun hne => absurd rfl hne, fun hcond => absurd hcond hv⟩
  · intro h0 hsp
    obtain ⟨p1, p2, p3⟩ := noneMode_reachable h0 hsp hr
    exact ⟨p2, p3, p1⟩

/-- None-mode configuration (`pageSize = 0`, no `startingPage`). -/
def cfgNoneMode : Config :=
  { pageSize := 0, startingPage := none, sortBy := none, sortOrder := .desc,
    queryValid := true }

/-- C2 witness: the amended statement instantiated at a fresh None-mode
mount. -/
theorem count_subscription_page_guard_wit :
    (initM cfgNoneMode : MState Nat).countSubs = [] ∧
    (initM cfgNoneMode : MState Nat).st.pageCount = 0 := by
  have h := count_subscription_page_guard cfgNoneMode
    (initM cfgNoneMode : MState Nat) MReachable.init
  exact ⟨(h.2 rfl rfl).1, (h.2 rfl rfl).2.1⟩

/-- Traditional configuration (`pageSize = 5`, `startingPage = 1`) for the C3
counterexample; it satisfies the spec's configuration constraints. -/
def cfgTrad3 : Config :=
  { pageSize := 5, startingPage := some 1, sortBy := none, sortOrder := .desc,
    queryValid := true }

/-- The manager state reached from a fresh mount by the single facade call
`fetchPage(0)`. -/
def mPageZero : MState Nat :=
  { (initM cfgTrad3 : MState Nat) with
      st := fetchPage cfgTrad3 (initM cfgTrad3 : MState Nat).st 0 }

/-- C3 counterexample: with the spec-conformant configuration
`pageSize = 5, startingPage = 1`, the call `fetchPage(0)` passes the guard
(which rejects only `p < 0` and `p > pageCount`, and `pageCount = 0`), so the
reachable state `mPageZero` has `page = 0`, violating `page ≥ 1`. -/
theorem page_ge_one_cex :
    (∀ sp ∈ cfgTrad3.startingPage, 1 ≤ sp) ∧
    MReachable cfgTrad3 mPageZero ∧
    mPageZero.st.page = some 0 ∧
    ¬(∀ p ∈ mPageZero.st.page, 1 ≤ p) := by
  have hpage : mPageZero.st.page = some 0 := by decide
  refine ⟨?_, ?_, hpage, ?_⟩
  · intro sp hsp
    simp [cfgTrad3] at hsp
    omega
  · exact MReachable.step MReachable.init
      (MStep.fetchPageCall (initM cfgTrad3) 0 rfl)
  · intro hall
    have h0 := hall 0 (by rw [hpage]; rfl)
    omega

/-- C3 (amended): in every manager state reachable from a fresh mount of a
spec-conformant configuration (`startingPage ≥ 1` when supplied),
`limit ≥ 0` holds, and `page ≥ 0` holds whenever `page` is defined.  (The
original bound `page ≥ 1` fails because `fetchPage(0)` is accepted; see the
counterexample.) -/
theorem reachable_limit_page_nonneg {T : Type} (cfg : Config) (m : MState T)
    (hsp : ∀ sp ∈ cfg.startingPage, 1 ≤ sp) (hr : MReachable cfg m) :
    0 ≤ m.st.limit ∧ ∀ p ∈ m.st.page, 0 ≤ p :=
  stateInv_reachable hsp hr

/-- C3 witness: the amended invariant instantiated at a fresh Traditional
mount. -/
theorem reachable_limit_page_nonneg_wit :
    0 ≤ (initM cfgTrad3 : MState Nat).st.limit := by
  have h := reachable_limit_page_nonneg cfgTrad3 (initM cfgTrad3 : MState Nat)
    (by intro sp hsp; simp [cfgTrad3] at hsp; omega) MReachable.init
  exact h.1
